import Mathlib

/-!
goflow: the components of `component_test.go` and the protocol runtime of `runtime.go`.

The development embeds

* the three test components `doubleOnce`, `doubler` and `adder` as functions on
  channel histories (a receive-only port is the FIFO sequence of values still to
  arrive plus its closure, a send-only port is the sequence of values sent plus
  its closure);
* the `select` loop of `adder.Process` as a step function driven by the sequence
  of select outcomes (which case fired and what the receive returned);
* `Runtime.Init` and `Runtime.Handle` with the registered closures
  defunctionalised into `HandlerId` and every call that leaves `runtime.go`
  (graph mutation, websocket, log) recorded as an `Effect`.
-/

namespace flow

/-! ## Go `int` -/

/-- Two-complement wrap-around of a mathematical integer into the 64-bit Go `int`. -/
def wrapInt (z : Int) : Int := (z + 2 ^ 63) % 2 ^ 64 - 2 ^ 63

/-- Go `a + b` on `int`. -/
def goAdd (a b : Int) : Int := wrapInt (a + b)

/-- Go `a * b` on `int`. -/
def goMul (a b : Int) : Int := wrapInt (a * b)

/-! ## Channels -/

/-- Outcome of `v, ok := <-ch`: a value (`ok = true`) or the closed, empty
channel (`ok = false`). -/
inductive Recv where
  | val (v : Int)
  | closed
  deriving DecidableEq, Repr

/-- Receive-only end `<-chan int` as its reader sees it: the values still to
arrive, in FIFO order, and whether the sender closes the channel after them. -/
structure InChan where
  pending : List Int
  closed : Bool
  deriving DecidableEq, Repr

/-- Send-only end `chan<- int` with a live receiver (a send on the open channel
completes): the values sent so far, in order, and whether the channel has been
closed. -/
structure OutChan where
  sent : List Int
  closed : Bool
  deriving DecidableEq, Repr

/-- A freshly made channel, `make(chan int)`, seen from the sending end. -/
def OutChan.make : OutChan := ⟨[], false⟩

/-- The statement `ch <- v`; `none` when it panics (send on a closed channel). -/
def OutChan.send (c : OutChan) (v : Int) : Option OutChan :=
  if c.closed then none else some { c with sent := c.sent ++ [v] }

/-- The statement `close(ch)`; `none` when it panics (close of a closed
channel). -/
def OutChan.close (c : OutChan) : Option OutChan :=
  if c.closed then none else some { c with closed := true }

/-- The expression `<-ch`: `none` when the receive blocks forever (nothing
pending and the channel is never closed). -/
def InChan.recv (c : InChan) : Option (Recv × InChan) :=
  match c.pending with
  | v :: rest => some (Recv.val v, { c with pending := rest })
  | [] => if c.closed then some (Recv.closed, c) else none

/-! ## Single-input components -/

/-- The port set shared by `doubleOnce` and `doubler`. -/
structure intInAndOut where
  In : InChan
  Out : OutChan
  deriving DecidableEq, Repr

/-- Where a `Process` call on an `intInAndOut` component ends up: the ports
after its last operation, whether the call returned, and whether it panicked. A
call that neither returned nor panicked is blocked forever in a receive. -/
structure Exec where
  ports : intInAndOut
  returned : Bool
  panicked : Bool
  deriving DecidableEq, Repr

namespace doubleOnce

/-- `i := <-c.In; c.Out <- 2 * i`. A receive on a closed, empty channel yields
the zero value. -/
def Process (c : intInAndOut) : Exec :=
  match c.In.recv with
  | none => ⟨c, false, false⟩
  | some (Recv.val i, rest) =>
      match c.Out.send (goMul 2 i) with
      | some out => ⟨⟨rest, out⟩, true, false⟩
      | none => ⟨⟨rest, c.Out⟩, false, true⟩
  | some (Recv.closed, rest) =>
      match c.Out.send (goMul 2 0) with
      | some out => ⟨⟨rest, out⟩, true, false⟩
      | none => ⟨⟨rest, c.Out⟩, false, true⟩

end doubleOnce

namespace doubler

/-- Body of `for i := range c.In`, run over the values that arrive: what is
left pending on In, the output port, and whether a send panicked. -/
def loop : List Int → OutChan → List Int × OutChan × Bool
  | [], out => ([], out, false)
  | i :: rest, out =>
      match out.send (goMul 2 i) with
      | some out1 => loop rest out1
      | none => (rest, out, true)

/-- `for i := range c.In { c.Out <- 2 * i }`: the loop drains the channel and
ends when it is closed; on a channel that is never closed the call blocks after
the last value; a send on a closed Out panics. -/
def Process (c : intInAndOut) : Exec :=
  let r := loop c.In.pending c.Out
  ⟨⟨⟨r.1, c.In.closed⟩, r.2.1⟩, !r.2.2 && c.In.closed, r.2.2⟩

end doubler

/-! ## Input guard -/

/-- Modelled from the spec: the input guard (`NewInputGuard`, `Complete`) is
used by `adder.Process` but defined outside the available sources. Section 4.2:
a guard tracks the given input names as open. -/
structure InputGuard where
  ports : List (String × Bool)
  deriving DecidableEq, Repr

/-- Modelled from the spec: `NewInputGuard(names...)` constructs a guard
tracking the given input names as open (`false`: not yet closed). -/
def NewInputGuard (names : List String) : InputGuard :=
  ⟨names.map (fun n => (n, false))⟩

/-- Modelled from the spec: the guard state called all closed in section 4.2,
every tracked input has been marked closed. -/
def InputGuard.allClosed (g : InputGuard) : Bool := g.ports.all (fun p => p.2)

/-- Modelled from the spec: `Complete(name)` marks the named input as closed and
returns true iff this call moved the guard from some input still open to all
inputs closed. -/
def InputGuard.Complete (g : InputGuard) (name : String) : InputGuard × Bool :=
  let g1 : InputGuard := ⟨g.ports.map (fun p => if p.1 = name then (p.1, true) else p)⟩
  (g1, !g.allClosed && g1.allClosed)

/-! ## The two-input adder -/

/-- One iteration of the `select` in `adder.Process`: the case that fired and
what its receive returned. -/
inductive Event where
  | op1 (r : Recv)
  | op2 (r : Recv)
  deriving DecidableEq, Repr

/-- What the select saw on `Op1`, in order. -/
def onOp1 : List Event → List Recv
  | [] => []
  | Event.op1 r :: es => r :: onOp1 es
  | Event.op2 _ :: es => onOp1 es

/-- What the select saw on `Op2`, in order. -/
def onOp2 : List Event → List Recv
  | [] => []
  | Event.op1 _ :: es => onOp2 es
  | Event.op2 r :: es => r :: onOp2 es

/-- What a reader sees on a channel that carries `xs` and is then closed, when it
receives `k` more times after the last value. -/
def chanTrace (xs : List Int) (k : Nat) : List Recv :=
  xs.map Recv.val ++ List.replicate k Recv.closed

namespace adder

/-- Local variables of `adder.Process`, its output port, the arguments of the
`guard.Complete` calls made so far, whether the call has returned, and whether
it has panicked. -/
structure State where
  guard : InputGuard
  op1Buf : List Int
  op2Buf : List Int
  Sum : OutChan
  completed : List String
  returned : Bool
  panicked : Bool
  deriving DecidableEq, Repr

/-- The closure `addOp(op, buf, otherBuf)`; returns the new `*buf`, the new
`*otherBuf` and the output port after the send (`none`: the send panicked). -/
def addOp (op : Int) (buf otherBuf : List Int) (Sum : OutChan) :
    List Int × List Int × Option OutChan :=
  match otherBuf with
  | otherOp :: rest => (buf, rest, Sum.send (goAdd op otherOp))
  | [] => (buf ++ [op], [], some Sum)

/-- State before the `for` loop: guard on op1 and op2, two empty buffers. -/
def init : State :=
  { guard := NewInputGuard ["op1", "op2"], op1Buf := [], op2Buf := [],
    Sum := OutChan.make, completed := [], returned := false, panicked := false }

/-- The branch `else if guard.Complete(name) { return }`, with the deferred
`close(c.Sum)` run on return. -/
def complete (s : State) (name : String) : State :=
  let r := s.guard.Complete name
  if r.2 then
    match s.Sum.close with
    | some sum1 =>
        { s with guard := r.1, completed := s.completed ++ [name], returned := true,
                 Sum := sum1 }
    | none =>
        { s with guard := r.1, completed := s.completed ++ [name], panicked := true }
  else
    { s with guard := r.1, completed := s.completed ++ [name] }

/-- The branch `if ok { addOp(...) }` once `addOp` has run: the buffers are
updated, and a panicking send stops the call. -/
def afterAddOp (s : State) (b1 b2 : List Int) (sum : Option OutChan) : State :=
  match sum with
  | some sum1 => { s with op1Buf := b1, op2Buf := b2, Sum := sum1 }
  | none => { s with op1Buf := b1, op2Buf := b2, panicked := true }

/-- One iteration of the `for { select { ... } }` loop. -/
def step (s : State) : Event → State
  | Event.op1 (Recv.val op1) =>
      let r := addOp op1 s.op1Buf s.op2Buf s.Sum
      afterAddOp s r.1 r.2.1 r.2.2
  | Event.op1 Recv.closed => complete s "op1"
  | Event.op2 (Recv.val op2) =>
      let r := addOp op2 s.op2Buf s.op1Buf s.Sum
      afterAddOp s r.2.1 r.1 r.2.2
  | Event.op2 Recv.closed => complete s "op2"

/-- The loop from state `s`: it iterates until the `return` (or a panic). -/
def run : State → List Event → State
  | s, [] => s
  | s, e :: es => if s.returned || s.panicked then s else run (step s e) es

/-- `adder.Process` under the given sequence of select outcomes. -/
def Process (sched : List Event) : State := run init sched

end adder

/-- Interleaving used by the two-input test: Op1 = 3, 5, 92, 28 and
Op2 = 38, 94, 4, 9, with Op1 running ahead and its closure seen twice. -/
def demoSched : List Event :=
  [Event.op1 (Recv.val 3), Event.op1 (Recv.val 5), Event.op2 (Recv.val 38),
   Event.op2 (Recv.val 94), Event.op2 (Recv.val 4), Event.op1 (Recv.val 92),
   Event.op1 (Recv.val 28), Event.op1 Recv.closed, Event.op1 Recv.closed,
   Event.op2 (Recv.val 9), Event.op2 Recv.closed]

/-! ## Protocol payloads -/

/-- Dynamic value held by an `interface{}` field such as the data of an IIP. -/
inductive Value where
  | int (i : Int)
  | str (s : String)
  | bool (b : Bool)
  | null
  deriving DecidableEq, Repr

/-- Modelled from the spec: the `src{node,port}` and `tgt{node,port}` members of
the edge and IIP payloads (section 6); the declaration is outside the available
sources, the field names are the ones `runtime.go` selects. -/
structure portRef where
  Node : String
  Port : String
  deriving DecidableEq, Repr

/-- Modelled from the spec: the `src{data}` member of the `graph.addinitial`
payload. -/
structure dataRef where
  Data : Value
  deriving DecidableEq, Repr

/-- Modelled from the spec: payload of `graph.clear` (`id`, `main`). -/
structure clearGraph where
  Id : String
  Main : Bool
  deriving DecidableEq, Repr

/-- Modelled from the spec: payload of `graph.addnode` (`graph, component, id`). -/
structure addNode where
  Graph : String
  Component : String
  Id : String
  deriving DecidableEq, Repr

/-- Modelled from the spec: payload of `graph.removenode` (`graph, id`). -/
structure removeNode where
  Graph : String
  Id : String
  deriving DecidableEq, Repr

/-- Modelled from the spec: payload of `graph.renamenode` (`graph, from, to`). -/
structure renameNode where
  Graph : String
  From : String
  To : String
  deriving DecidableEq, Repr

/-- Modelled from the spec: payload of `graph.addedge`. -/
structure addEdge where
  Graph : String
  Src : portRef
  Tgt : portRef
  deriving DecidableEq, Repr

/-- Modelled from the spec: payload of `graph.removedge` (same fields as
`addEdge`). -/
structure removeEdge where
  Graph : String
  Src : portRef
  Tgt : portRef
  deriving DecidableEq, Repr

/-- Modelled from the spec: payload of `graph.addinitial`
(`graph, src{data}, tgt{node,port}`). -/
structure addInitial where
  Graph : String
  Src : dataRef
  Tgt : portRef
  deriving DecidableEq, Repr

/-- Modelled from the spec: payload of `graph.removeinitial`
(`graph, tgt{node,port}`). -/
structure removeInitial where
  Graph : String
  Tgt : portRef
  deriving DecidableEq, Repr

/-- Modelled from the spec: payload of `graph.addinport` and `graph.addoutport`
(`graph, public, node, port`). -/
structure addPort where
  Graph : String
  Public : String
  Node : String
  Port : String
  deriving DecidableEq, Repr

/-- Modelled from the spec: payload of `graph.removeinport` and
`graph.removeoutport` (`graph, public`). -/
structure removePort where
  Graph : String
  Public : String
  deriving DecidableEq, Repr

/-- Modelled from the spec: payload of `graph.renameinport` and
`graph.renameoutport` (`graph, from, to`). -/
structure renamePort where
  Graph : String
  From : String
  To : String
  deriving DecidableEq, Repr

/-- The `interface{}` payload of a message with its dynamic type; `untyped` is
any value of another type (including nil). -/
inductive Payload where
  | clearGraph (msg : flow.clearGraph)
  | addNode (msg : flow.addNode)
  | removeNode (msg : flow.removeNode)
  | renameNode (msg : flow.renameNode)
  | addEdge (msg : flow.addEdge)
  | removeEdge (msg : flow.removeEdge)
  | addInitial (msg : flow.addInitial)
  | removeInitial (msg : flow.removeInitial)
  | addPort (msg : flow.addPort)
  | removePort (msg : flow.removePort)
  | renamePort (msg : flow.renamePort)
  | untyped (v : Value)
  deriving DecidableEq, Repr

/-- Modelled from the spec: a protocol message, JSON commands grouped by
`protocol` and `command` and carrying a typed payload (section 6). -/
structure Message where
  Protocol : String
  Command : String
  Payload : flow.Payload
  deriving DecidableEq, Repr

/-- Modelled from the spec: the reply to `runtime.getruntime`,
`{type, version, capabilities[], id}`, in the field order of the composite
literal in `runtime.go`. -/
structure runtimeInfo where
  Kind : String
  Version : String
  Capabilities : List String
  Id : String
  deriving DecidableEq, Repr

/-! ## Graph-mutation calls -/

/-- Address of a heap-allocated `Graph`. -/
abbrev Ptr := Nat

/-- Modelled from the spec: the methods of `Graph` that `runtime.go` calls. The
type is outside the available sources, so a call is recorded with its arguments
in call position; parameter names follow section 4.4, and `AddIIP` takes
`(node, port, value)` as declared there and as `graph_iip_test.go` calls it. -/
inductive GraphCall where
  | InitGraphState
  | AddNew (componentTypeName name : String)
  | Remove (name : String)
  | Rename (old new : String)
  | Connect (srcNode srcPort tgtNode tgtPort : String)
  | Disconnect (srcNode srcPort tgtNode tgtPort : String)
  | AddIIP (node port value : Value)
  | RemoveIIP (node port : String)
  | MapInPort (pub node port : String)
  | MapOutPort (pub node port : String)
  | UnsetInPort (pub : String)
  | UnmapInPort (pub : String)
  | UnsetOutPort (pub : String)
  | UnmapOutPort (pub : String)
  | RenameInPort (old new : String)
  | RenameOutPort (old new : String)
  deriving DecidableEq, Repr

/-- The closures that `Runtime.Init` stores in `r.handlers`, one name per
`func(ws, payload)` literal. -/
inductive HandlerId where
  | getruntime
  | clear
  | addnode
  | removenode
  | renamenode
  | changenode
  | addedge
  | removedge
  | changeedge
  | addinitial
  | removeinitial
  | addinport
  | removeinport
  | renameinport
  | addoutport
  | removeoutport
  | renameoutport
  | componentlist
  deriving DecidableEq, Repr

/-- What `runtime.go` does to the outside: log lines, websocket traffic, handler
invocation, and method calls on a `*Graph` receiver (`none` is the nil
pointer). -/
inductive Effect where
  | log (line : String)
  | jsonSend (info : runtimeInfo)
  | invoke (h : HandlerId) (payload : Payload)
  | call (recv : Option Ptr) (c : GraphCall)
  | wsClose
  deriving DecidableEq, Repr

/-! ## Go maps -/

/-- A Go `map[string]V`: `none` is the nil map, `some l` an allocated map with
at most one entry per key. -/
abbrev GoMap (α : Type) := Option (List (String × α))

/-- The index expression `m[key]` with the comma-ok result; reading a nil map
finds nothing. -/
def GoMap.get {α : Type} (m : GoMap α) (key : String) : Option α :=
  match m with
  | none => none
  | some l => (l.find? (fun e => e.1 == key)).map (fun e => e.2)

/-- The assignment `m[key] = v`; `none` when it panics (assignment to an entry
of a nil map). -/
def GoMap.set {α : Type} (m : GoMap α) (key : String) (v : α) : Option (GoMap α) :=
  match m with
  | none => none
  | some l => some (some ((key, v) :: l.filter (fun e => !(e.1 == key))))

/-! ## Runtime -/

/-- The struct `Runtime`. The two signal channels are `none` (nil),
`some false` (open) or `some true` (closed). -/
structure Runtime where
  id : String
  handlers : GoMap HandlerId
  graphs : GoMap Ptr
  mainId : String
  main : Option Ptr
  ready : Option Bool
  done : Option Bool
  deriving DecidableEq, Repr

/-- The zero value of `Runtime`, as `new(Runtime)` yields it. -/
def Runtime.zero : Runtime :=
  { id := "", handlers := none, graphs := none, mainId := "", main := none,
    ready := none, done := none }

/-- `Runtime.Init`, with `uv4` the string form of the UUID that `uuid.NewV4`
generated. It sets `id`, `done`, `ready` and `handlers` and no other field. -/
def Runtime.Init (r : Runtime) (uv4 : String) : Runtime :=
  { r with
    id := uv4,
    done := some false,
    ready := some false,
    handlers := some
      [("runtime.getruntime", HandlerId.getruntime),
       ("graph.clear", HandlerId.clear),
       ("graph.addnode", HandlerId.addnode),
       ("graph.removenode", HandlerId.removenode),
       ("graph.renamenode", HandlerId.renamenode),
       ("graph.changenode", HandlerId.changenode),
       ("graph.addedge", HandlerId.addedge),
       ("graph.removedge", HandlerId.removedge),
       ("graph.changeedge", HandlerId.changeedge),
       ("graph.addinitial", HandlerId.addinitial),
       ("graph.removeinitial", HandlerId.removeinitial),
       ("graph.addinport", HandlerId.addinport),
       ("graph.removeinport", HandlerId.removeinport),
       ("graph.renameinport", HandlerId.renameinport),
       ("graph.addoutport", HandlerId.addoutport),
       ("graph.removeoutport", HandlerId.removeoutport),
       ("graph.renameoutport", HandlerId.renameoutport),
       ("component.list", HandlerId.componentlist)] }

/-- The running program around a `Runtime`: the runtime object, the number of
`Graph` objects allocated so far, the effects issued so far, and the panic that
stopped the current call, if any. -/
structure Machine where
  r : Runtime
  heap : Nat
  effects : List Effect
  panic : Option String
  deriving DecidableEq, Repr

/-- A machine about to serve its next call. -/
def Machine.start (r : Runtime) (heap : Nat) : Machine :=
  { r := r, heap := heap, effects := [], panic := none }

/-- Issue one effect. -/
def Machine.emit (m : Machine) (e : Effect) : Machine :=
  { m with effects := m.effects ++ [e] }

/-- The statement `r.graphs[graph].Method(args)`: the receiver is whatever the
map holds under `graph`, nil included. -/
def Machine.graphCall (m : Machine) (graph : String) (c : GraphCall) : Machine :=
  m.emit (Effect.call (GoMap.get m.r.graphs graph) c)

/-- A failed type assertion `payload.(T)`. -/
def Machine.badPayload (m : Machine) (want : String) : Machine :=
  { m with panic := some ("interface conversion: interface is not flow." ++ want) }

/-- The bodies of the closures registered by `Runtime.Init`. -/
def HandlerId.run : HandlerId → Machine → Payload → Machine
  | HandlerId.getruntime, m, _ =>
      m.emit (Effect.jsonSend
        { Kind := "goflow", Version := "0.4",
          Capabilities := ["protocol:runtime", "protocol:graph", "protocol:component",
                           "protocol:network", "component:getsource"],
          Id := m.r.id })
  | HandlerId.clear, m, Payload.clearGraph msg =>
      let p : Ptr := m.heap
      let m1 : Machine := { m with heap := m.heap + 1 }
      match GoMap.set m1.r.graphs msg.Id p with
      | none => { m1 with panic := some "assignment to entry in nil map" }
      | some g =>
          let m2 : Machine := { m1 with r := { m1.r with graphs := g } }
          let m3 := m2.graphCall msg.Id GraphCall.InitGraphState
          if msg.Main then
            { m3 with r := { m3.r with mainId := msg.Id, main := GoMap.get m3.r.graphs msg.Id } }
          else m3
  | HandlerId.clear, m, _ => m.badPayload "clearGraph"
  | HandlerId.addnode, m, Payload.addNode msg =>
      m.graphCall msg.Graph (GraphCall.AddNew msg.Component msg.Id)
  | HandlerId.addnode, m, _ => m.badPayload "addNode"
  | HandlerId.removenode, m, Payload.removeNode msg =>
      m.graphCall msg.Graph (GraphCall.Remove msg.Id)
  | HandlerId.removenode, m, _ => m.badPayload "removeNode"
  | HandlerId.renamenode, m, Payload.renameNode msg =>
      m.graphCall msg.Graph (GraphCall.Rename msg.From msg.To)
  | HandlerId.renamenode, m, _ => m.badPayload "renameNode"
  | HandlerId.changenode, m, _ => m
  | HandlerId.addedge, m, Payload.addEdge msg =>
      m.graphCall msg.Graph
        (GraphCall.Connect msg.Src.Node msg.Src.Port msg.Tgt.Node msg.Tgt.Port)
  | HandlerId.addedge, m, _ => m.badPayload "addEdge"
  | HandlerId.removedge, m, Payload.removeEdge msg =>
      m.graphCall msg.Graph
        (GraphCall.Disconnect msg.Src.Node msg.Src.Port msg.Tgt.Node msg.Tgt.Port)
  | HandlerId.removedge, m, _ => m.badPayload "removeEdge"
  | HandlerId.changeedge, m, _ => m
  | HandlerId.addinitial, m, Payload.addInitial msg =>
      m.graphCall msg.Graph
        (GraphCall.AddIIP msg.Src.Data (Value.str msg.Tgt.Node) (Value.str msg.Tgt.Port))
  | HandlerId.addinitial, m, _ => m.badPayload "addInitial"
  | HandlerId.removeinitial, m, Payload.removeInitial msg =>
      m.graphCall msg.Graph (GraphCall.RemoveIIP msg.Tgt.Node msg.Tgt.Port)
  | HandlerId.removeinitial, m, _ => m.badPayload "removeInitial"
  | HandlerId.addinport, m, Payload.addPort msg =>
      m.graphCall msg.Graph (GraphCall.MapInPort msg.Public msg.Node msg.Port)
  | HandlerId.addinport, m, _ => m.badPayload "addPort"
  | HandlerId.removeinport, m, Payload.removePort msg =>
      (m.graphCall msg.Graph (GraphCall.UnsetInPort msg.Public)).graphCall msg.Graph
        (GraphCall.UnmapInPort msg.Public)
  | HandlerId.removeinport, m, _ => m.badPayload "removePort"
  | HandlerId.renameinport, m, Payload.renamePort msg =>
      m.graphCall msg.Graph (GraphCall.RenameInPort msg.From msg.To)
  | HandlerId.renameinport, m, _ => m.badPayload "renamePort"
  | HandlerId.addoutport, m, Payload.addPort msg =>
      m.graphCall msg.Graph (GraphCall.MapOutPort msg.Public msg.Node msg.Port)
  | HandlerId.addoutport, m, _ => m.badPayload "addPort"
  | HandlerId.removeoutport, m, Payload.removePort msg =>
      (m.graphCall msg.Graph (GraphCall.UnsetOutPort msg.Public)).graphCall msg.Graph
        (GraphCall.UnmapOutPort msg.Public)
  | HandlerId.removeoutport, m, _ => m.badPayload "removePort"
  | HandlerId.renameoutport, m, Payload.renamePort msg =>
      m.graphCall msg.Graph (GraphCall.RenameOutPort msg.From msg.To)
  | HandlerId.renameoutport, m, _ => m.badPayload "renamePort"
  | HandlerId.componentlist, m, _ => m

/-- `Runtime.Handle` on one connection: `recv` is what `websocket.JSON.Receive`
returned and `closeErr` what the deferred `ws.Close()` returns. -/
def Runtime.Handle (m : Machine) (recv : Except String Message) (closeErr : Option String) :
    Machine :=
  let m1 : Machine :=
    match recv with
    | Except.error err => m.emit (Effect.log err)
    | Except.ok msg =>
        match GoMap.get m.r.handlers (msg.Protocol ++ "." ++ msg.Command) with
        | none =>
            m.emit
              (Effect.log ("Unknown command: " ++ msg.Protocol ++ "." ++ msg.Command ++ "\n"))
        | some handler => handler.run (m.emit (Effect.invoke handler msg.Payload)) msg.Payload
  let m2 := m1.emit Effect.wsClose
  match closeErr with
  | none => m2
  | some err => m2.emit (Effect.log err)

/-- The handler invocations among the effects, in order. -/
def invocations : List Effect → List (HandlerId × Payload)
  | [] => []
  | Effect.invoke h p :: es => (h, p) :: invocations es
  | _ :: es => invocations es

/-- The graph-mutation calls among the effects, in order, each with its
receiver. -/
def graphCalls : List Effect → List (Option Ptr × GraphCall)
  | [] => []
  | Effect.call recv c :: es => (recv, c) :: graphCalls es
  | _ :: es => graphCalls es

/-- A runtime that was created with a non-nil `graphs` map holding graph `g` at
address 0, then initialised. -/
def demoRuntime : Runtime :=
  Runtime.Init { Runtime.zero with graphs := some [("g", 0)] } "4b1c"

/-- The IIP of `newRepeat5Times` as a `graph.addinitial` message: value 5 for
port Times of node r. -/
def demoAddInitial : Message :=
  { Protocol := "graph", Command := "addinitial",
    Payload := Payload.addInitial
      { Graph := "g", Src := { Data := Value.int 5 }, Tgt := { Node := "r", Port := "Times" } } }

/-- Op1 is closed at once while Op2 still has the value 7 to deliver: the select
picks the closed Op1 twice before Op2 is served. -/
def spinSched : List Event :=
  [Event.op1 Recv.closed, Event.op1 Recv.closed, Event.op2 (Recv.val 7), Event.op2 Recv.closed]

/-- A message whose key `graph.frobnicate` no handler is registered under. -/
def demoUnknown : Message :=
  { Protocol := "graph", Command := "frobnicate", Payload := Payload.untyped Value.null }

/-! # Theorems -/

/-! ## Go `int` arithmetic agrees with the integers where the result fits -/

theorem wrapInt_of_fits (z : Int) (lo : -(2 ^ 63) ≤ z) (hi : z < 2 ^ 63) : wrapInt z = z := by
  unfold wrapInt
  have h : (z + 2 ^ 63) % 2 ^ 64 = z + 2 ^ 63 :=
    Int.emod_eq_of_lt (by omega) (by omega)
  omega

theorem goMul_two_of_fits (x : Int) (lo : -(2 ^ 62) ≤ x) (hi : x < 2 ^ 62) :
    goMul 2 x = 2 * x := by
  unfold goMul
  exact wrapInt_of_fits _ (by omega) (by omega)

theorem goAdd_of_fits (a b : Int) (lo : -(2 ^ 63) ≤ a + b) (hi : a + b < 2 ^ 63) :
    goAdd a b = a + b := by
  unfold goAdd
  exact wrapInt_of_fits _ lo hi

/-- Go addition on `int` is commutative. -/
theorem goAdd_comm (a b : Int) : goAdd a b = goAdd b a := by
  unfold goAdd
  rw [Int.add_comm]

/-! ## doubler and doubleOnce -/

/-- On an open output port the range loop drains its input, appends the doubled
values and neither closes the port nor panics. -/
theorem doubler_loop_open (xs : List Int) :
    ∀ sent0 : List Int,
      doubler.loop xs ⟨sent0, false⟩
        = ([], ⟨sent0 ++ xs.map (fun x => goMul 2 x), false⟩, false) := by
  induction xs with
  | nil => intro sent0; simp [doubler.loop]
  | cons x rest ih => intro sent0; simp [doubler.loop, OutChan.send, ih]

/-- C3: for every finite sequence xs sent on In followed by closing In, doubler.Process
writes exactly the doubled values (the Go product `2 * x` of each), in the same
order and with nothing added or dropped, has drained In, and returns. -/
theorem doubler_maps_elementwise (xs : List Int) :
    (doubler.Process ⟨⟨xs, true⟩, OutChan.make⟩).ports.Out.sent
        = xs.map (fun x => goMul 2 x)
      ∧ (doubler.Process ⟨⟨xs, true⟩, OutChan.make⟩).ports.In.pending = []
      ∧ (doubler.Process ⟨⟨xs, true⟩, OutChan.make⟩).returned = true := by
  simp [doubler.Process, OutChan.make, doubler_loop_open]

/-- C8 as stated fails: on the input 12, 7, 400 followed by closure,
doubler.Process has sent 24, 14, 800 and returned without a panic, and Out is
still open: the body contains no close of Out. -/
theorem doubler_returns_with_out_open :
    doubler.Process ⟨⟨[12, 7, 400], true⟩, OutChan.make⟩
      = ⟨⟨⟨[], true⟩, ⟨[24, 14, 800], false⟩⟩, true, false⟩ := by
  decide

/-- C8 (amended): for every finite input sequence and every open output port
(whatever was sent on it before), once In has been closed and drained,
doubler.Process returns, without a panic, having appended the doubled values and
without closing Out: Out is still open, so a reader of Out observes the doubled
values and no closure made by Process. -/
theorem doubler_never_closes_out (xs : List Int) (sent0 : List Int) :
    doubler.Process ⟨⟨xs, true⟩, ⟨sent0, false⟩⟩
      = ⟨⟨⟨[], true⟩, ⟨sent0 ++ xs.map (fun x => goMul 2 x), false⟩⟩, true, false⟩ := by
  simp [doubler.Process, doubler_loop_open]

/-- C9: when i is the first value available on In and Out is open (whatever
was sent on it before), doubleOnce.Process consumes exactly that value
(everything behind it is still pending and the closure state of In is
untouched), sends exactly one value, the Go product `2 * i`, leaves Out open and
returns without a panic. -/
theorem doubleOnce_runs_once (i : Int) (rest : List Int) (cl : Bool) (sent0 : List Int) :
    doubleOnce.Process ⟨⟨i :: rest, cl⟩, ⟨sent0, false⟩⟩
      = ⟨⟨⟨rest, cl⟩, ⟨sent0 ++ [goMul 2 i], false⟩⟩, true, false⟩ := by
  rfl

/-! ## adder -/

theorem guard_complete_op1 (c1 c2 : Bool) :
    (InputGuard.mk [("op1", c1), ("op2", c2)]).Complete "op1"
      = (⟨[("op1", true), ("op2", c2)]⟩, !(c1 && c2) && c2) := by
  simp [InputGuard.Complete, InputGuard.allClosed]

theorem guard_complete_op2 (c1 c2 : Bool) :
    (InputGuard.mk [("op1", c1), ("op2", c2)]).Complete "op2"
      = (⟨[("op1", c1), ("op2", true)]⟩, !(c1 && c2) && c1) := by
  simp [InputGuard.Complete, InputGuard.allClosed]

theorem adder_run_returned (s : adder.State) (es : List Event) (h : s.returned = true) :
    adder.run s es = s := by
  cases es with
  | nil => rfl
  | cons e es => simp [adder.run, h]

theorem adder_run_panicked (s : adder.State) (es : List Event) (h : s.panicked = true) :
    adder.run s es = s := by
  cases es with
  | nil => rfl
  | cons e es => simp [adder.run, h]

theorem adder_run_cons (s : adder.State) (e : Event) (es : List Event)
    (h : s.returned = false) (hp : s.panicked = false) :
    adder.run s (e :: es) = adder.run (adder.step s e) es := by
  simp [adder.run, h, hp]

/-- An Op1 value with nothing buffered on the other side is buffered. -/
theorem adder_step_op1_buffer (s : adder.State) (v : Int) (hob : s.op2Buf = []) :
    adder.step s (Event.op1 (Recv.val v))
      = { s with op1Buf := s.op1Buf ++ [v], op2Buf := [] } := by
  simp [adder.step, adder.addOp, adder.afterAddOp, hob]

/-- An Op1 value meeting a buffered Op2 value is summed with it and sent. -/
theorem adder_step_op1_send (s : adder.State) (v y : Int) (rest : List Int)
    (hob : s.op2Buf = y :: rest) (hcl : s.Sum.closed = false) :
    adder.step s (Event.op1 (Recv.val v))
      = { s with op2Buf := rest, Sum := ⟨s.Sum.sent ++ [goAdd v y], false⟩ } := by
  simp [adder.step, adder.addOp, adder.afterAddOp, hob, OutChan.send, hcl]

/-- An Op2 value with nothing buffered on the other side is buffered. -/
theorem adder_step_op2_buffer (s : adder.State) (v : Int) (hob : s.op1Buf = []) :
    adder.step s (Event.op2 (Recv.val v))
      = { s with op2Buf := s.op2Buf ++ [v], op1Buf := [] } := by
  simp [adder.step, adder.addOp, adder.afterAddOp, hob]

/-- An Op2 value meeting a buffered Op1 value is summed with it and sent. -/
theorem adder_step_op2_send (s : adder.State) (v x : Int) (rest : List Int)
    (hob : s.op1Buf = x :: rest) (hcl : s.Sum.closed = false) :
    adder.step s (Event.op2 (Recv.val v))
      = { s with op1Buf := rest, Sum := ⟨s.Sum.sent ++ [goAdd v x], false⟩ } := by
  simp [adder.step, adder.addOp, adder.afterAddOp, hob, OutChan.send, hcl]

/-- Observing Op1 closed after Op2: the guard answers true, Sum is closed and
the call returns. -/
theorem adder_step_op1_last (s : adder.State)
    (hg : s.guard = ⟨[("op1", false), ("op2", true)]⟩) (hcl : s.Sum.closed = false) :
    adder.step s (Event.op1 Recv.closed)
      = { s with guard := ⟨[("op1", true), ("op2", true)]⟩,
                 completed := s.completed ++ ["op1"], returned := true,
                 Sum := ⟨s.Sum.sent, true⟩ } := by
  simp [adder.step, adder.complete, hg, guard_complete_op1, OutChan.close, hcl]

/-- Observing Op1 closed while Op2 is open: the guard answers false. -/
theorem adder_step_op1_more (s : adder.State) (c1 : Bool)
    (hg : s.guard = ⟨[("op1", c1), ("op2", false)]⟩) :
    adder.step s (Event.op1 Recv.closed)
      = { s with guard := ⟨[("op1", true), ("op2", false)]⟩,
                 completed := s.completed ++ ["op1"] } := by
  simp [adder.step, adder.complete, hg, guard_complete_op1]

/-- Observing Op2 closed after Op1: the guard answers true, Sum is closed and
the call returns. -/
theorem adder_step_op2_last (s : adder.State)
    (hg : s.guard = ⟨[("op1", true), ("op2", false)]⟩) (hcl : s.Sum.closed = false) :
    adder.step s (Event.op2 Recv.closed)
      = { s with guard := ⟨[("op1", true), ("op2", true)]⟩,
                 completed := s.completed ++ ["op2"], returned := true,
                 Sum := ⟨s.Sum.sent, true⟩ } := by
  simp [adder.step, adder.complete, hg, guard_complete_op2, OutChan.close, hcl]

/-- Observing Op2 closed while Op1 is open: the guard answers false. -/
theorem adder_step_op2_more (s : adder.State) (c2 : Bool)
    (hg : s.guard = ⟨[("op1", false), ("op2", c2)]⟩) :
    adder.step s (Event.op2 Recv.closed)
      = { s with guard := ⟨[("op1", false), ("op2", true)]⟩,
                 completed := s.completed ++ ["op2"] } := by
  simp [adder.step, adder.complete, hg, guard_complete_op2]

theorem chanTrace_val_cons {v : Int} {rs : List Recv} {A : List Int} {i : Nat}
    (h : Recv.val v :: rs = chanTrace A i) : ∃ A1, A = v :: A1 ∧ rs = chanTrace A1 i := by
  cases A with
  | nil =>
      cases i with
      | zero => simp [chanTrace] at h
      | succ k => simp [chanTrace, List.replicate_succ] at h
  | cons a A1 =>
      simp [chanTrace] at h
      exact ⟨A1, by simp [h.1], by simp [chanTrace, h.2]⟩

theorem chanTrace_closed_cons {rs : List Recv} {A : List Int} {i : Nat}
    (h : Recv.closed :: rs = chanTrace A i) : A = [] ∧ ∃ k, i = k + 1 ∧ rs = chanTrace [] k := by
  cases A with
  | nil =>
      cases i with
      | zero => simp [chanTrace] at h
      | succ k =>
          simp [chanTrace, List.replicate_succ] at h
          exact ⟨rfl, k, rfl, by simp [chanTrace, h]⟩
  | cons a A1 => simp [chanTrace] at h

theorem chanTrace_nil {A : List Int} {i : Nat} (h : [] = chanTrace A i) : A = [] ∧ i = 0 := by
  cases A with
  | nil =>
      cases i with
      | zero => exact ⟨rfl, rfl⟩
      | succ k => simp [chanTrace, List.replicate_succ] at h
  | cons a A1 => simp [chanTrace] at h

/-- Invariant of the adder loop, from any state that has neither returned nor
panicked and whose Sum is open: with the guard knowing c1 and c2, at most one
buffer non-empty, and the rest of the select outcomes carrying the rest of both
streams and their closures, the loop returns and the output is what was sent
before followed by the pairwise sums of buffered-then-arriving operands. -/
theorem adder_run_sums (es : List Event) :
    ∀ (s : adder.State) (A B : List Int) (i j : Nat) (c1 c2 : Bool),
      s.returned = false → s.panicked = false → s.Sum.closed = false →
      s.guard = ⟨[("op1", c1), ("op2", c2)]⟩ →
      (c1 && c2) = false →
      (s.op1Buf = [] ∨ s.op2Buf = []) →
      (c1 = true → A = []) → (c2 = true → B = []) →
      (c1 = false → 0 < i) → (c2 = false → 0 < j) →
      onOp1 es = chanTrace A i → onOp2 es = chanTrace B j →
      (adder.run s es).Sum.sent
          = s.Sum.sent ++ List.zipWith goAdd (s.op1Buf ++ A) (s.op2Buf ++ B)
        ∧ (adder.run s es).returned = true := by
  induction es with
  | nil =>
      intro s A B i j c1 c2 _ _ _ _ hc _ _ _ hi hj h1 h2
      have hi0 := (chanTrace_nil h1).2
      have hj0 := (chanTrace_nil h2).2
      cases c1 <;> cases c2 <;> simp_all
  | cons e es ih =>
      intro s A B i j c1 c2 hr hp hcl hg hc hb hA hB hi hj h1 h2
      rw [adder_run_cons s e es hr hp]
      cases e with
      | op1 r =>
          simp only [onOp1, onOp2] at h1 h2
          cases r with
          | val v =>
              obtain ⟨A1, rfl, h1t⟩ := chanTrace_val_cons h1
              have hc1 : c1 = false := by
                cases c1
                · rfl
                · exact absurd (hA rfl) (by simp)
              cases hob : s.op2Buf with
              | nil =>
                  rw [adder_step_op1_buffer s v hob]
                  have := ih { s with op1Buf := s.op1Buf ++ [v], op2Buf := [] }
                    A1 B i j c1 c2 hr hp hcl hg hc (Or.inr rfl) (by simp [hc1]) hB hi hj h1t h2
                  simpa [hob] using this
              | cons y rest =>
                  have hb1 : s.op1Buf = [] := by
                    rcases hb with h | h
                    · exact h
                    · simp [hob] at h
                  rw [adder_step_op1_send s v y rest hob hcl]
                  have := ih { s with op2Buf := rest,
                                      Sum := ⟨s.Sum.sent ++ [goAdd v y], false⟩ }
                    A1 B i j c1 c2 hr hp rfl hg hc (Or.inl hb1) (by simp [hc1]) hB hi hj h1t h2
                  simpa [hob, hb1] using this
          | closed =>
              obtain ⟨rfl, k, rfl, h1t⟩ := chanTrace_closed_cons h1
              cases c2 with
              | true =>
                  have hB0 : B = [] := hB rfl
                  have hc1 : c1 = false := by simpa using hc
                  subst hB0 hc1
                  have hz : List.zipWith goAdd s.op1Buf s.op2Buf = [] := by
                    rcases hb with h | h <;> simp [h]
                  rw [adder_step_op1_last s hg hcl, adder_run_returned _ _ rfl]
                  simp [hz]
              | false =>
                  rw [adder_step_op1_more s c1 hg]
                  have := ih { s with guard := ⟨[("op1", true), ("op2", false)]⟩,
                                      completed := s.completed ++ ["op1"] }
                    [] B k j true false hr hp hcl rfl rfl hb (fun _ => rfl) (by simp)
                    (by simp) hj h1t h2
                  simpa using this
      | op2 r =>
          simp only [onOp1, onOp2] at h1 h2
          cases r with
          | val v =>
              obtain ⟨B1, rfl, h2t⟩ := chanTrace_val_cons h2
              have hc2 : c2 = false := by
                cases c2
                · rfl
                · exact absurd (hB rfl) (by simp)
              cases hob : s.op1Buf with
              | nil =>
                  rw [adder_step_op2_buffer s v hob]
                  have := ih { s with op2Buf := s.op2Buf ++ [v], op1Buf := [] }
                    A B1 i j c1 c2 hr hp hcl hg hc (Or.inl rfl) hA (by simp [hc2]) hi hj h1 h2t
                  simpa [hob] using this
              | cons x rest =>
                  have hb2 : s.op2Buf = [] := by
                    rcases hb with h | h
                    · simp [hob] at h
                    · exact h
                  rw [adder_step_op2_send s v x rest hob hcl]
                  have := ih { s with op1Buf := rest,
                                      Sum := ⟨s.Sum.sent ++ [goAdd v x], false⟩ }
                    A B1 i j c1 c2 hr hp rfl hg hc (Or.inr hb2) hA (by simp [hc2]) hi hj h1 h2t
                  simpa [hob, hb2, goAdd_comm v x] using this
          | closed =>
              obtain ⟨rfl, k, rfl, h2t⟩ := chanTrace_closed_cons h2
              cases c1 with
              | true =>
                  have hA0 : A = [] := hA rfl
                  have hc2 : c2 = false := by simpa using hc
                  subst hA0 hc2
                  have hz : List.zipWith goAdd s.op1Buf s.op2Buf = [] := by
                    rcases hb with h | h <;> simp [h]
                  rw [adder_step_op2_last s hg hcl, adder_run_returned _ _ rfl]
                  simp [hz]
              | false =>
                  rw [adder_step_op2_more s c2 hg]
                  have := ih { s with guard := ⟨[("op1", false), ("op2", true)]⟩,
                                      completed := s.completed ++ ["op2"] }
                    A [] i k false true hr hp hcl rfl rfl hb (by simp) (fun _ => rfl)
                    hi (by simp) h1 h2t
                  simpa using this

/-- C1: for every pair of finite streams A on Op1 and B on Op2 and every order
in which the select delivers their values and observes their closures (each
stream in its own order; a closed input may be observed closed any number of
times), adder.Process returns having written to Sum exactly the pairwise Go sums
of A and B, in order: as many as the shorter stream has values, so no unmatched
operand is written. -/
theorem adder_pairwise_sums (A B : List Int) (sched : List Event) (i j : Nat)
    (h1 : onOp1 sched = chanTrace A (i + 1)) (h2 : onOp2 sched = chanTrace B (j + 1)) :
    (adder.Process sched).Sum.sent = List.zipWith goAdd A B
      ∧ (adder.Process sched).Sum.sent.length = min A.length B.length
      ∧ (adder.Process sched).returned = true := by
  have h := adder_run_sums sched adder.init A B (i + 1) (j + 1) false false rfl rfl rfl rfl rfl
    (Or.inl rfl) (by simp) (by simp) (by simp) (by simp) h1 h2
  have hs : (adder.Process sched).Sum.sent = List.zipWith goAdd A B := by
    simpa [adder.Process, adder.init, OutChan.make] using h.1
  exact ⟨hs, by simp [hs], h.2⟩

/-- The two-input scenario of the spec under the interleaving `demoSched`. -/
theorem adder_pairwise_sums_witness :
    onOp1 demoSched = chanTrace [3, 5, 92, 28] (1 + 1)
      ∧ onOp2 demoSched = chanTrace [38, 94, 4, 9] (0 + 1)
      ∧ (adder.Process demoSched).Sum.sent = List.zipWith goAdd [3, 5, 92, 28] [38, 94, 4, 9]
      ∧ (adder.Process demoSched).Sum.sent.length
          = min [3, 5, 92, 28].length [38, 94, 4, 9].length
      ∧ (adder.Process demoSched).returned = true :=
  ⟨by decide, by decide,
   adder_pairwise_sums [3, 5, 92, 28] [38, 94, 4, 9] demoSched 1 0 (by decide) (by decide)⟩

/-- From a state with an open Sum the adder loop returns exactly when both
closures have been observed, and Sum is closed exactly when it has returned. -/
theorem adder_run_return (es : List Event) :
    ∀ (s : adder.State) (c1 c2 : Bool),
      s.returned = false → s.panicked = false → s.Sum.closed = false →
      s.guard = ⟨[("op1", c1), ("op2", c2)]⟩ → (c1 && c2) = false →
      ((adder.run s es).returned = true ↔
          ((c1 = true ∨ Event.op1 Recv.closed ∈ es) ∧ (c2 = true ∨ Event.op2 Recv.closed ∈ es)))
        ∧ (adder.run s es).Sum.closed = (adder.run s es).returned := by
  induction es with
  | nil =>
      intro s c1 c2 hr _ hcl _ hc
      cases c1 <;> cases c2 <;> simp_all [adder.run]
  | cons e es ih =>
      intro s c1 c2 hr hp hcl hg hc
      rw [adder_run_cons s e es hr hp]
      cases e with
      | op1 r =>
          cases r with
          | val v =>
              cases hob : s.op2Buf with
              | nil =>
                  rw [adder_step_op1_buffer s v hob]
                  have := ih { s with op1Buf := s.op1Buf ++ [v], op2Buf := [] }
                    c1 c2 hr hp hcl hg hc
                  simpa using this
              | cons y rest =>
                  rw [adder_step_op1_send s v y rest hob hcl]
                  have := ih { s with op2Buf := rest,
                                      Sum := ⟨s.Sum.sent ++ [goAdd v y], false⟩ }
                    c1 c2 hr hp rfl hg hc
                  simpa using this
          | closed =>
              cases c2 with
              | true =>
                  have hc1 : c1 = false := by simpa using hc
                  subst hc1
                  rw [adder_step_op1_last s hg hcl, adder_run_returned _ _ rfl]
                  simp
              | false =>
                  rw [adder_step_op1_more s c1 hg]
                  have := ih { s with guard := ⟨[("op1", true), ("op2", false)]⟩,
                                      completed := s.completed ++ ["op1"] }
                    true false hr hp hcl rfl rfl
                  simpa using this
      | op2 r =>
          cases r with
          | val v =>
              cases hob : s.op1Buf with
              | nil =>
                  rw [adder_step_op2_buffer s v hob]
                  have := ih { s with op2Buf := s.op2Buf ++ [v], op1Buf := [] }
                    c1 c2 hr hp hcl hg hc
                  simpa using this
              | cons x rest =>
                  rw [adder_step_op2_send s v x rest hob hcl]
                  have := ih { s with op1Buf := rest,
                                      Sum := ⟨s.Sum.sent ++ [goAdd v x], false⟩ }
                    c1 c2 hr hp rfl hg hc
                  simpa using this
          | closed =>
              cases c1 with
              | true =>
                  have hc2 : c2 = false := by simpa using hc
                  subst hc2
                  rw [adder_step_op2_last s hg hcl, adder_run_returned _ _ rfl]
                  simp
              | false =>
                  rw [adder_step_op2_more s c2 hg]
                  have := ih { s with guard := ⟨[("op1", false), ("op2", true)]⟩,
                                      completed := s.completed ++ ["op2"] }
                    false true hr hp hcl rfl rfl
                  simpa using this

/-- C2: with the guard of section 4.2, after any sequence of select outcomes
adder.Process has returned if and only if both Op1 and Op2 have been observed
closed in that sequence, and Sum is closed exactly when Process has returned.
Applied to every initial segment of an execution: Process has not returned (and
Sum is open) while an input is still unobserved closed, and it returns, closing
Sum, at the step that observes the second closure. -/
theorem adder_returns_iff_both_closed (sched : List Event) :
    ((adder.Process sched).returned = true ↔
        (Event.op1 Recv.closed ∈ sched ∧ Event.op2 Recv.closed ∈ sched))
      ∧ (adder.Process sched).Sum.closed = (adder.Process sched).returned := by
  have h := adder_run_return sched adder.init false false rfl rfl rfl rfl rfl
  simpa [adder.Process] using h

theorem adder_step_completed_val1 (s : adder.State) (v : Int) :
    (adder.step s (Event.op1 (Recv.val v))).completed = s.completed := by
  simp only [adder.step, adder.afterAddOp]
  split <;> rfl

theorem adder_step_completed_val2 (s : adder.State) (v : Int) :
    (adder.step s (Event.op2 (Recv.val v))).completed = s.completed := by
  simp only [adder.step, adder.afterAddOp]
  split <;> rfl

theorem adder_complete_completed (s : adder.State) (name : String) :
    (adder.complete s name).completed = s.completed ++ [name] := by
  unfold adder.complete
  dsimp only
  split
  · split <;> rfl
  · rfl

/-- Every `guard.Complete` call of the loop names op1 or op2, and a name is
completed at most once per observed closure of its input. -/
theorem adder_run_completed (es : List Event) :
    ∀ s : adder.State,
      (∀ n ∈ (adder.run s es).completed, n ∈ s.completed ∨ n = "op1" ∨ n = "op2")
        ∧ (adder.run s es).completed.count "op1"
            ≤ s.completed.count "op1" + es.count (Event.op1 Recv.closed)
        ∧ (adder.run s es).completed.count "op2"
            ≤ s.completed.count "op2" + es.count (Event.op2 Recv.closed) := by
  induction es with
  | nil =>
      intro s
      exact ⟨fun n hn => Or.inl hn, by simp [adder.run], by simp [adder.run]⟩
  | cons e es ih =>
      intro s
      by_cases hr : s.returned = true
      · rw [adder_run_returned s _ hr]
        exact ⟨fun n hn => Or.inl hn, Nat.le_add_right _ _, Nat.le_add_right _ _⟩
      by_cases hp : s.panicked = true
      · rw [adder_run_panicked s _ hp]
        exact ⟨fun n hn => Or.inl hn, Nat.le_add_right _ _, Nat.le_add_right _ _⟩
      · have hr0 : s.returned = false := by simpa using hr
        have hp0 : s.panicked = false := by simpa using hp
        rw [adder_run_cons s e es hr0 hp0]
        obtain ⟨hm, h1, h2⟩ := ih (adder.step s e)
        cases e with
        | op1 r =>
            cases r with
            | val v =>
                rw [adder_step_completed_val1] at hm h1 h2
                refine ⟨hm, ?_, ?_⟩
                · simpa [List.count_cons] using h1
                · simpa [List.count_cons] using h2
            | closed =>
                have hs : adder.step s (Event.op1 Recv.closed) = adder.complete s "op1" := rfl
                rw [hs] at hm h1 h2 ⊢
                rw [adder_complete_completed] at hm h1 h2
                refine ⟨?_, ?_, ?_⟩
                · intro n hn
                  rcases hm n hn with h | h | h
                  · rcases List.mem_append.mp h with h | h
                    · exact Or.inl h
                    · exact Or.inr (Or.inl (by simpa using h))
                  · exact Or.inr (Or.inl h)
                  · exact Or.inr (Or.inr h)
                · simp [List.count_cons, List.count_append] at h1 ⊢
                  omega
                · simp [List.count_cons, List.count_append] at h2 ⊢
                  omega
        | op2 r =>
            cases r with
            | val v =>
                rw [adder_step_completed_val2] at hm h1 h2
                refine ⟨hm, ?_, ?_⟩
                · simpa [List.count_cons] using h1
                · simpa [List.count_cons] using h2
            | closed =>
                have hs : adder.step s (Event.op2 Recv.closed) = adder.complete s "op2" := rfl
                rw [hs] at hm h1 h2 ⊢
                rw [adder_complete_completed] at hm h1 h2
                refine ⟨?_, ?_, ?_⟩
                · intro n hn
                  rcases hm n hn with h | h | h
                  · rcases List.mem_append.mp h with h | h
                    · exact Or.inl h
                    · exact Or.inr (Or.inr (by simpa using h))
                  · exact Or.inr (Or.inl h)
                  · exact Or.inr (Or.inr h)
                · simp [List.count_cons, List.count_append] at h1 ⊢
                  omega
                · simp [List.count_cons, List.count_append] at h2 ⊢
                  omega

/-- C10 as stated fails: with Op1 closed at once and Op2 still delivering 7, the
select may pick the closed Op1 twice, and adder.Process then calls
guard.Complete on op1 twice, the second time for a name already completed. -/
theorem adder_completes_op1_twice :
    onOp1 spinSched = chanTrace [] 2 ∧ onOp2 spinSched = chanTrace [7] 1
      ∧ (adder.Process spinSched).completed = ["op1", "op1", "op2"]
      ∧ ¬ ((adder.Process spinSched).completed.count "op1" ≤ 1) := by
  decide

/-- C10 (amended): in every execution adder.Process calls guard.Complete only
with op1 or op2, the names given to NewInputGuard, and for each name at most
once per time the select observes that input closed. -/
theorem adder_completes_known_names (sched : List Event) :
    (∀ n ∈ (adder.Process sched).completed, n = "op1" ∨ n = "op2")
      ∧ (adder.Process sched).completed.count "op1" ≤ sched.count (Event.op1 Recv.closed)
      ∧ (adder.Process sched).completed.count "op2" ≤ sched.count (Event.op2 Recv.closed) := by
  have h := adder_run_completed sched adder.init
  simpa [adder.Process, adder.init] using h

/-! ## Runtime -/

theorem invocations_append (xs ys : List Effect) :
    invocations (xs ++ ys) = invocations xs ++ invocations ys := by
  induction xs with
  | nil => rfl
  | cons e xs ih => cases e <;> simp [invocations, ih]

theorem graphCalls_append (xs ys : List Effect) :
    graphCalls (xs ++ ys) = graphCalls xs ++ graphCalls ys := by
  induction xs with
  | nil => rfl
  | cons e xs ih => cases e <;> simp [graphCalls, ih]

/-- No registered closure invokes a handler itself. -/
theorem handler_run_invocations (h : HandlerId) (m : Machine) (p : Payload) :
    invocations (h.run m p).effects = invocations m.effects := by
  cases h <;> cases p <;>
    simp [HandlerId.run, Machine.graphCall, Machine.emit, Machine.badPayload,
      invocations_append, invocations]
  split
  · rfl
  · split <;> simp [invocations_append, invocations]

/-- C4 (fails on the code): for the IIP of the repeat-5-times graph, value 5 for
port Times of node r, the graph.addinitial handler issues one AddIIP call on
graphs[g] whose node argument is the data 5, whose port argument is the node
name r and whose value argument is the port name Times; that is not the call
AddIIP(r, Times, 5) of the declared argument order. -/
theorem addinitial_passes_data_first :
    graphCalls (Runtime.Handle (Machine.start demoRuntime 1) (Except.ok demoAddInitial) none).effects
        = [(some 0, GraphCall.AddIIP (Value.int 5) (Value.str "r") (Value.str "Times"))]
      ∧ graphCalls
          (Runtime.Handle (Machine.start demoRuntime 1) (Except.ok demoAddInitial) none).effects
        ≠ [(some 0, GraphCall.AddIIP (Value.str "r") (Value.str "Times") (Value.int 5))] := by
  decide

/-- C5 (fails on the code): on a zero-valued Runtime that has only been
initialised with Init, the graphs map is still nil, and handling graph.clear,
whatever the id and the main flag, panics on the assignment to graphs[id]; no
graph is bound, graphs stays nil and mainId and main are not set. -/
theorem clear_after_init_panics (uv4 : String) (heap : Nat) (msg : clearGraph)
    (closeErr : Option String) :
    (Runtime.Init Runtime.zero uv4).graphs = none
      ∧ (Runtime.Handle (Machine.start (Runtime.Init Runtime.zero uv4) heap)
          (Except.ok ⟨"graph", "clear", Payload.clearGraph msg⟩) closeErr).panic
        = some "assignment to entry in nil map"
      ∧ (Runtime.Handle (Machine.start (Runtime.Init Runtime.zero uv4) heap)
          (Except.ok ⟨"graph", "clear", Payload.clearGraph msg⟩) closeErr).r
        = Runtime.Init Runtime.zero uv4 := by
  cases closeErr <;> exact ⟨rfl, rfl, rfl⟩

/-- What a handler body does is independent of the effects issued before it
ran: they are kept in front of its own. -/
theorem handler_run_after (h : HandlerId) (m : Machine) (p : Payload) :
    (h.run m p).r = (h.run { m with effects := [] } p).r
      ∧ (h.run m p).heap = (h.run { m with effects := [] } p).heap
      ∧ (h.run m p).panic = (h.run { m with effects := [] } p).panic
      ∧ (h.run m p).effects = m.effects ++ (h.run { m with effects := [] } p).effects := by
  cases h <;> cases p <;>
    simp [HandlerId.run, Machine.graphCall, Machine.emit, Machine.badPayload]
  split
  · simp
  · split <;> simp

/-- C6: for every received message, if its key protocol.command is not in the
handlers map then Runtime.Handle invokes no handler and issues no graph-mutation
call: all it does is log the unknown command and close the connection, without
a panic and with the runtime state unchanged. If a handler is stored under the
key then exactly that handler is invoked, once, with the payload of the
message: the body of that handler is run on the payload (state, allocations and
panic are those of the body) and what Handle does is the invocation, then the
effects of the body, then the close of the connection. -/
theorem handle_dispatches_by_key (r : Runtime) (heap : Nat) (msg : Message)
    (closeErr : Option String) :
    (GoMap.get r.handlers (msg.Protocol ++ "." ++ msg.Command) = none →
        (Runtime.Handle (Machine.start r heap) (Except.ok msg) closeErr).r = r
          ∧ invocations
              (Runtime.Handle (Machine.start r heap) (Except.ok msg) closeErr).effects = []
          ∧ graphCalls
              (Runtime.Handle (Machine.start r heap) (Except.ok msg) closeErr).effects = []
          ∧ (Runtime.Handle (Machine.start r heap) (Except.ok msg) closeErr).heap = heap
          ∧ (Runtime.Handle (Machine.start r heap) (Except.ok msg) closeErr).panic = none
          ∧ (Runtime.Handle (Machine.start r heap) (Except.ok msg) closeErr).effects
              = Effect.log ("Unknown command: " ++ msg.Protocol ++ "." ++ msg.Command ++ "\n")
                  :: Effect.wsClose :: (closeErr.map Effect.log).toList)
      ∧ (∀ h : HandlerId,
          GoMap.get r.handlers (msg.Protocol ++ "." ++ msg.Command) = some h →
            invocations (Runtime.Handle (Machine.start r heap) (Except.ok msg) closeErr).effects
                = [(h, msg.Payload)]
              ∧ (Runtime.Handle (Machine.start r heap) (Except.ok msg) closeErr).r
                  = (h.run (Machine.start r heap) msg.Payload).r
              ∧ (Runtime.Handle (Machine.start r heap) (Except.ok msg) closeErr).heap
                  = (h.run (Machine.start r heap) msg.Payload).heap
              ∧ (Runtime.Handle (Machine.start r heap) (Except.ok msg) closeErr).panic
                  = (h.run (Machine.start r heap) msg.Payload).panic
              ∧ (Runtime.Handle (Machine.start r heap) (Except.ok msg) closeErr).effects
                  = Effect.invoke h msg.Payload
                      :: ((h.run (Machine.start r heap) msg.Payload).effects
                          ++ Effect.wsClose :: (closeErr.map Effect.log).toList)) := by
  constructor
  · intro hk
    cases closeErr <;>
      simp [Runtime.Handle, Machine.start, Machine.emit, hk, invocations, graphCalls]
  · intro h hk
    have hrun := handler_run_after h
      ((Machine.start r heap).emit (Effect.invoke h msg.Payload)) msg.Payload
    have hbase : ({ (Machine.start r heap).emit (Effect.invoke h msg.Payload) with
        effects := [] } : Machine) = Machine.start r heap := rfl
    rw [hbase] at hrun
    obtain ⟨h1, h2, h3, h4⟩ := hrun
    have hinv := handler_run_invocations h
      ((Machine.start r heap).emit (Effect.invoke h msg.Payload)) msg.Payload
    have hinv0 := handler_run_invocations h (Machine.start r heap) msg.Payload
    simp only [Machine.start, Machine.emit, List.nil_append, invocations]
      at h1 h2 h3 h4 hinv hinv0
    cases closeErr <;>
      simp [Runtime.Handle, hk, Machine.emit, h1, h2, h3, h4, hinv0, invocations,
        invocations_append, Machine.start]

/-- An unregistered key on an initialised runtime, and the registered key
graph.addinitial, whose body issues the AddIIP call on graph g. -/
theorem handle_dispatches_by_key_witness :
    (GoMap.get demoRuntime.handlers (demoUnknown.Protocol ++ "." ++ demoUnknown.Command) = none
        ∧ (Runtime.Handle (Machine.start demoRuntime 1) (Except.ok demoUnknown) none).r
            = demoRuntime
        ∧ invocations
            (Runtime.Handle (Machine.start demoRuntime 1) (Except.ok demoUnknown) none).effects = []
        ∧ graphCalls
            (Runtime.Handle (Machine.start demoRuntime 1) (Except.ok demoUnknown) none).effects = []
        ∧ (Runtime.Handle (Machine.start demoRuntime 1) (Except.ok demoUnknown) none).heap = 1
        ∧ (Runtime.Handle (Machine.start demoRuntime 1) (Except.ok demoUnknown) none).panic = none
        ∧ (Runtime.Handle (Machine.start demoRuntime 1) (Except.ok demoUnknown) none).effects
            = [Effect.log "Unknown command: graph.frobnicate\n", Effect.wsClose])
      ∧ (GoMap.get demoRuntime.handlers (demoAddInitial.Protocol ++ "." ++ demoAddInitial.Command)
            = some HandlerId.addinitial
        ∧ invocations
            (Runtime.Handle (Machine.start demoRuntime 1) (Except.ok demoAddInitial) none).effects
          = [(HandlerId.addinitial, demoAddInitial.Payload)]
        ∧ (Runtime.Handle (Machine.start demoRuntime 1) (Except.ok demoAddInitial) none).r
            = demoRuntime
        ∧ (Runtime.Handle (Machine.start demoRuntime 1) (Except.ok demoAddInitial) none).heap = 1
        ∧ (Runtime.Handle (Machine.start demoRuntime 1) (Except.ok demoAddInitial) none).panic
            = none
        ∧ (Runtime.Handle (Machine.start demoRuntime 1) (Except.ok demoAddInitial) none).effects
            = [Effect.invoke HandlerId.addinitial demoAddInitial.Payload,
               Effect.call (some 0)
                 (GraphCall.AddIIP (Value.int 5) (Value.str "r") (Value.str "Times")),
               Effect.wsClose]) :=
  ⟨⟨by decide, (handle_dispatches_by_key demoRuntime 1 demoUnknown none).1 (by decide)⟩,
   ⟨by decide,
    (handle_dispatches_by_key demoRuntime 1 demoAddInitial none).2 HandlerId.addinitial
      (by decide)⟩⟩

/-- C7: after Init, for every payload, each node, edge and port command issues
exactly the graph-mutation calls of its table row, with the payload fields in
the argument order of section 4.4, every call on graphs[payload.graph] and none
on another receiver: addnode AddNew(component, id); removenode Remove(id);
renamenode Rename(from, to); addedge Connect and removedge Disconnect on
(src.node, src.port, tgt.node, tgt.port); removeinitial RemoveIIP(tgt.node,
tgt.port); addinport and addoutport MapInPort and MapOutPort(public, node,
port); renameinport and renameoutport RenameInPort and RenameOutPort(from, to);
removeinport UnsetInPort(public) then UnmapInPort(public); removeoutport
UnsetOutPort(public) then UnmapOutPort(public). -/
theorem graph_commands_map_to_calls (r : Runtime) (uv4 : String) (heap : Nat)
    (closeErr : Option String) :
    (∀ msg : addNode,
        graphCalls (Runtime.Handle (Machine.start (Runtime.Init r uv4) heap)
          (Except.ok ⟨"graph", "addnode", Payload.addNode msg⟩) closeErr).effects
        = [(GoMap.get (Runtime.Init r uv4).graphs msg.Graph,
            GraphCall.AddNew msg.Component msg.Id)])
      ∧ (∀ msg : removeNode,
        graphCalls (Runtime.Handle (Machine.start (Runtime.Init r uv4) heap)
          (Except.ok ⟨"graph", "removenode", Payload.removeNode msg⟩) closeErr).effects
        = [(GoMap.get (Runtime.Init r uv4).graphs msg.Graph, GraphCall.Remove msg.Id)])
      ∧ (∀ msg : renameNode,
        graphCalls (Runtime.Handle (Machine.start (Runtime.Init r uv4) heap)
          (Except.ok ⟨"graph", "renamenode", Payload.renameNode msg⟩) closeErr).effects
        = [(GoMap.get (Runtime.Init r uv4).graphs msg.Graph,
            GraphCall.Rename msg.From msg.To)])
      ∧ (∀ msg : addEdge,
        graphCalls (Runtime.Handle (Machine.start (Runtime.Init r uv4) heap)
          (Except.ok ⟨"graph", "addedge", Payload.addEdge msg⟩) closeErr).effects
        = [(GoMap.get (Runtime.Init r uv4).graphs msg.Graph,
            GraphCall.Connect msg.Src.Node msg.Src.Port msg.Tgt.Node msg.Tgt.Port)])
      ∧ (∀ msg : removeEdge,
        graphCalls (Runtime.Handle (Machine.start (Runtime.Init r uv4) heap)
          (Except.ok ⟨"graph", "removedge", Payload.removeEdge msg⟩) closeErr).effects
        = [(GoMap.get (Runtime.Init r uv4).graphs msg.Graph,
            GraphCall.Disconnect msg.Src.Node msg.Src.Port msg.Tgt.Node msg.Tgt.Port)])
      ∧ (∀ msg : removeInitial,
        graphCalls (Runtime.Handle (Machine.start (Runtime.Init r uv4) heap)
          (Except.ok ⟨"graph", "removeinitial", Payload.removeInitial msg⟩) closeErr).effects
        = [(GoMap.get (Runtime.Init r uv4).graphs msg.Graph,
            GraphCall.RemoveIIP msg.Tgt.Node msg.Tgt.Port)])
      ∧ (∀ msg : addPort,
        graphCalls (Runtime.Handle (Machine.start (Runtime.Init r uv4) heap)
          (Except.ok ⟨"graph", "addinport", Payload.addPort msg⟩) closeErr).effects
        = [(GoMap.get (Runtime.Init r uv4).graphs msg.Graph,
            GraphCall.MapInPort msg.Public msg.Node msg.Port)])
      ∧ (∀ msg : addPort,
        graphCalls (Runtime.Handle (Machine.start (Runtime.Init r uv4) heap)
          (Except.ok ⟨"graph", "addoutport", Payload.addPort msg⟩) closeErr).effects
        = [(GoMap.get (Runtime.Init r uv4).graphs msg.Graph,
            GraphCall.MapOutPort msg.Public msg.Node msg.Port)])
      ∧ (∀ msg : renamePort,
        graphCalls (Runtime.Handle (Machine.start (Runtime.Init r uv4) heap)
          (Except.ok ⟨"graph", "renameinport", Payload.renamePort msg⟩) closeErr).effects
        = [(GoMap.get (Runtime.Init r uv4).graphs msg.Graph,
            GraphCall.RenameInPort msg.From msg.To)])
      ∧ (∀ msg : renamePort,
        graphCalls (Runtime.Handle (Machine.start (Runtime.Init r uv4) heap)
          (Except.ok ⟨"graph", "renameoutport", Payload.renamePort msg⟩) closeErr).effects
        = [(GoMap.get (Runtime.Init r uv4).graphs msg.Graph,
            GraphCall.RenameOutPort msg.From msg.To)])
      ∧ (∀ msg : removePort,
        graphCalls (Runtime.Handle (Machine.start (Runtime.Init r uv4) heap)
          (Except.ok ⟨"graph", "removeinport", Payload.removePort msg⟩) closeErr).effects
        = [(GoMap.get (Runtime.Init r uv4).graphs msg.Graph, GraphCall.UnsetInPort msg.Public),
           (GoMap.get (Runtime.Init r uv4).graphs msg.Graph, GraphCall.UnmapInPort msg.Public)])
      ∧ (∀ msg : removePort,
        graphCalls (Runtime.Handle (Machine.start (Runtime.Init r uv4) heap)
          (Except.ok ⟨"graph", "removeoutport", Payload.removePort msg⟩) closeErr).effects
        = [(GoMap.get (Runtime.Init r uv4).graphs msg.Graph, GraphCall.UnsetOutPort msg.Public),
           (GoMap.get (Runtime.Init r uv4).graphs msg.Graph,
            GraphCall.UnmapOutPort msg.Public)]) := by
  cases closeErr <;>
    exact ⟨fun _ => rfl, fun _ => rfl, fun _ => rfl, fun _ => rfl, fun _ => rfl, fun _ => rfl,
      fun _ => rfl, fun _ => rfl, fun _ => rfl, fun _ => rfl, fun _ => rfl, fun _ => rfl⟩

end flow
